import Mathlib

/-!
Verification of the scrape-cache-and-normalize pipeline of the
exploreSLMobileApp back end.

The development shallowly embeds, in Lean:

* the HTML tree values produced by the (spec-modelled) page fetcher and the
  BeautifulSoup-style operations used by the scrapers (`find_all` by tag,
  `find` by tag+class, `get_text(strip=True)`, `decode_contents`,
  `decompose`-style removals),
* the heading/list extraction helpers of `app/common/html_utils.py`,
* the Mongo `scrape` collection as a list of (id, document) pairs with
  `find_one`, `insert_one`, `delete_one` and `replace_one(upsert=True)`,
* `save_scrape` of `app/utils/db_save.py`,
* the seven page scrapers (`visa`, `transport`, `top_places`,
  `historical_places`, `top_beaches`, `cost_of_living`, `broadband`) and the
  forced-refresh endpoint `refresh_scraped_data` of `main.py`.

Python strings are embedded as `String` / `List Char`; Python `str.replace`
is embedded as `replaceAll` below; machine behaviour that raises an uncaught
exception is embedded as `Except.error`.
-/

/-- A single quote character, used to build the visa placeholder string. -/
def squote : String := String.singleton (Char.ofNat 39)

/-! ## HTML tree model

A parsed document is a tree of element and text nodes.  `classes` is the
(possibly empty) token list of the element's `class` attribute. -/

mutual

inductive Node where
  | text (s : String)
  | elem (tag : String) (classes : List String) (children : NodeList)

inductive NodeList where
  | nil
  | cons (n : Node) (ns : NodeList)

end

/-- Tag name of a node (text nodes have no tag). -/
def nodeTag : Node → String
  | .text _ => ""
  | .elem t _ _ => t

/-- Class token list of a node. -/
def nodeClasses : Node → List String
  | .text _ => []
  | .elem _ c _ => c

/-- Children of a node. -/
def nodeChildren : Node → NodeList
  | .text _ => .nil
  | .elem _ _ ch => ch

mutual

/-- All nodes of the subtree rooted at `n` (including `n` itself) that satisfy
`p`, in document (pre-order) order.  This is the search engine underlying
BeautifulSoup's `find_all`/`find`. -/
def collectN (p : Node → Bool) : Node → List Node
  | .text s => if p (.text s) then [.text s] else []
  | .elem t c ch =>
      (if p (.elem t c ch) then [.elem t c ch] else []) ++ collectL p ch

/-- `collectN` over a child list, left to right. -/
def collectL (p : Node → Bool) : NodeList → List Node
  | .nil => []
  | .cons n ns => collectN p n ++ collectL p ns

end

/-- BeautifulSoup searches the *descendants* of the node it is called on,
never the node itself. -/
def findAllP (p : Node → Bool) (n : Node) : List Node :=
  collectL p (nodeChildren n)

/-- `soup.find_all(tag)`. -/
def findAllTag (t : String) (n : Node) : List Node :=
  findAllP (fun m => nodeTag m == t) n

/-- BeautifulSoup `class_` matching: a string matches either one of the
element's class tokens or the whole space-joined `class` attribute. -/
def bs4ClassMatch (wanted : String) (m : Node) : Bool :=
  wanted ∈ nodeClasses m || wanted == String.intercalate " " (nodeClasses m)

/-- `soup.find(tag, class_=cls)`: first matching descendant. -/
def findTagClass (t cls : String) (n : Node) : Option Node :=
  (findAllP (fun m => nodeTag m == t && bs4ClassMatch cls m) n).head?

/-- `soup.find_all(tag, class_=cls)`. -/
def findAllTagClass (t cls : String) (n : Node) : List Node :=
  findAllP (fun m => nodeTag m == t && bs4ClassMatch cls m) n

mutual

/-- Raw text fragments of the descendants of a node, in document order. -/
def textsN : Node → List String
  | .text s => [s]
  | .elem _ _ ch => textsL ch

def textsL : NodeList → List String
  | .nil => []
  | .cons n ns => textsN n ++ textsL ns

end

/-- Python `str.strip()` whitespace test (ASCII cases). -/
def pySpace (c : Char) : Bool :=
  c == ' ' || c == '\t' || c == '\n' || c == '\r' || c == Char.ofNat 11 || c == Char.ofNat 12

/-- Python `str.strip()`. -/
def pyStrip (s : String) : String :=
  ⟨((s.data.dropWhile pySpace).reverse.dropWhile pySpace).reverse⟩

/-- `tag.get_text(strip=True)`: each text fragment stripped, all joined with
the empty separator (whitespace-only fragments contribute nothing). -/
def getTextStrip (n : Node) : String :=
  String.join ((textsN n).map pyStrip)

/-- The `class` attribute rendered back into markup. -/
def classAttrStr (cls : List String) : String :=
  if cls = [] then "" else " class=\"" ++ String.intercalate " " cls ++ "\""

mutual

/-- `str(tag)`: serialize a node to markup. -/
def renderN : Node → String
  | .text s => s
  | .elem t cls ch => "<" ++ t ++ classAttrStr cls ++ ">" ++ renderL ch ++ "</" ++ t ++ ">"

def renderL : NodeList → String
  | .nil => ""
  | .cons n ns => renderN n ++ renderL ns

end

/-- `tag.decode_contents()`: serialize the children only (inner markup). -/
def decodeContents (n : Node) : String :=
  renderL (nodeChildren n)

mutual

/-- BeautifulSoup `Tag.string`: the single text child, recursing through a
single element child; `none` whenever there is not exactly one child. -/
def nodeString : Node → Option String
  | .text s => some s
  | .elem _ _ ch => nodeListString ch

def nodeListString : NodeList → Option String
  | .nil => none
  | .cons c .nil => nodeString c
  | .cons _ (.cons _ _) => none

end

mutual

/-- Remove (`decompose`) every node of the subtree satisfying `p`; applied to
a node that itself survives. -/
def removeN (p : Node → Bool) : Node → Node
  | .text s => .text s
  | .elem t c ch => .elem t c (removeL p ch)

def removeL (p : Node → Bool) : NodeList → NodeList
  | .nil => .nil
  | .cons n ns => if p n then removeL p ns else .cons (removeN p n) (removeL p ns)

end

mutual

/-- Remove the `target`-th (0-indexed, pre-order) node satisfying `p`, keeping
everything else; threads the running match counter. -/
def removeIdxN (p : Node → Bool) (target : Nat) : Node → Nat → Option Node × Nat
  | .text s, c =>
      if p (.text s) then
        (if c = target then (none, c + 1) else (some (.text s), c + 1))
      else (some (.text s), c)
  | .elem t cl ch, c =>
      if p (.elem t cl ch) then
        if c = target then (none, c + 1)
        else
          let r := removeIdxL p target ch (c + 1)
          (some (.elem t cl r.1), r.2)
      else
        let r := removeIdxL p target ch c
        (some (.elem t cl r.1), r.2)

def removeIdxL (p : Node → Bool) (target : Nat) : NodeList → Nat → NodeList × Nat
  | .nil, c => (.nil, c)
  | .cons n ns, c =>
      let rn := removeIdxN p target n c
      let rns := removeIdxL p target ns rn.2
      (match rn.1 with
       | none => rns.1
       | some m => .cons m rns.1, rns.2)

end

/-- Python `sub in s` substring membership for embedded strings. -/
def containsSeq [BEq α] (pat : List α) : List α → Bool
  | [] => pat.isEmpty
  | a :: l => pat.isPrefixOf (a :: l) || containsSeq pat l

/-- A table cell (`td` or `th`). -/
def isCell (n : Node) : Bool :=
  nodeTag n == "td" || nodeTag n == "th"

/-- `cells = row.find_all(["td","th"]); if cells: cells[-1].decompose()`:
remove the last cell (in document order) of a row's descendants. -/
def removeLastCellNode (row : Node) : Node :=
  let cells := findAllP isCell row
  if cells.isEmpty then row
  else
    match row with
    | .text s => .text s
    | .elem t cl ch => .elem t cl (removeIdxL isCell (cells.length - 1) ch 0).1

mutual

/-- Apply `removeLastCellNode` to every `tr` of the tree (bottom-up; the
source iterates `content.find_all("tr")` top-down, which agrees on any
document without nested `tr` elements). -/
def fixRowsN : Node → Node
  | .text s => .text s
  | .elem t c ch =>
      let ch2 := fixRowsL ch
      if t == "tr" then removeLastCellNode (.elem t c ch2) else .elem t c ch2

def fixRowsL : NodeList → NodeList
  | .nil => .nil
  | .cons n ns => .cons (fixRowsN n) (fixRowsL ns)

end

/-- The anchors stripped by the living-cost cleanup:
an element `a` with `"edit" in a.get("class", [])` or with
`"edit" in a.get_text(strip=True).lower()`. -/
def isEditAnchor (n : Node) : Bool :=
  nodeTag n == "a" &&
    (decide ("edit" ∈ nodeClasses n) || containsSeq "edit".data (getTextStrip n).toLower.data)

/-- Step-3 cleanup of `cost_of_living`: decompose `i`/`svg`/`img` elements,
decompose edit links, then drop the last cell of every row. -/
def cleanupLivingCost (content : Node) : Node :=
  let c1 := removeN (fun n => nodeTag n == "i" || nodeTag n == "svg" || nodeTag n == "img") content
  let c2 := removeN isEditAnchor c1
  fixRowsN c2

/-! ## `app/common/html_utils.py` -/

/-- `extract_headings(soup)`: for `i` in `range(1, 7)`, extend with the
stripped text of every `h{i}` descendant. -/
def extract_headings (soup : Node) : List String :=
  (List.range' 1 6).flatMap
    (fun i => (findAllTag ("h" ++ toString i) soup).map getTextStrip)

/-- `extract_list_items(soup)`: stripped text of every `li` descendant. -/
def extract_list_items (soup : Node) : List String :=
  (findAllTag "li" soup).map getTextStrip

/-! ## Document-store model

A Mongo document is an ordered association list from field names to values;
the store keeps the assigned `_id` (a natural number) alongside each document
and assigns fresh ids from a counter. -/

inductive Val where
  | str (s : String)
  | strList (l : List String)
deriving DecidableEq

abbrev Doc := List (String × Val)

abbrev DFilter := List (String × Val)

structure Store where
  docs : List (Nat × Doc)
  nextId : Nat
deriving DecidableEq

/-- A document matches a filter when every filter field is present with the
given value. -/
def matchesFilter (f : DFilter) (d : Doc) : Bool :=
  f.all (fun kv => d.lookup kv.1 == some kv.2)

/-- `collection.find_one(filter)` (insertion order). -/
def findOne (st : Store) (f : DFilter) : Option (Nat × Doc) :=
  st.docs.find? (fun nd => matchesFilter f nd.2)

/-- Number of stored documents matching a filter. -/
def countFor (st : Store) (f : DFilter) : Nat :=
  (st.docs.filter (fun nd => matchesFilter f nd.2)).length

/-- Store writes issued by the scrapers. -/
inductive WriteOp where
  | insertOne (d : Doc)
  | deleteOne (f : DFilter)
  | replaceOneUpsert (f : DFilter) (d : Doc)
deriving DecidableEq

/-- Replace the contents of the first document matching `p`, keeping its id. -/
def replaceFirst (p : Doc → Bool) (d : Doc) : List (Nat × Doc) → List (Nat × Doc)
  | [] => []
  | nd :: rest =>
      if p nd.2 then (nd.1, d) :: rest else nd :: replaceFirst p d rest

def applyOp (st : Store) : WriteOp → Store
  | .insertOne d => ⟨st.docs ++ [(st.nextId, d)], st.nextId + 1⟩
  | .deleteOne f => ⟨st.docs.eraseP (fun nd => matchesFilter f nd.2), st.nextId⟩
  | .replaceOneUpsert f d =>
      if (st.docs.find? (fun nd => matchesFilter f nd.2)).isSome then
        ⟨replaceFirst (fun dd => matchesFilter f dd) d st.docs, st.nextId⟩
      else
        ⟨st.docs ++ [(st.nextId, d)], st.nextId + 1⟩

def applyOps (st : Store) (ops : List WriteOp) : Store :=
  ops.foldl applyOp st

/-! ## `app/utils/db_save.py` -/

structure SaveAck where
  message : String
  id : String
deriving DecidableEq

/-- The writes `save_scrape` performs: nothing for a falsy payload or one
carrying an `error` key, one plain insert otherwise. -/
def save_scrape_ops (data : Doc) : List WriteOp :=
  if data.isEmpty || (data.lookup "error").isSome then []
  else [.insertOne data]

/-- `save_scrape(data)`: refuse falsy or error-marked payloads (returning
`None`), otherwise insert and acknowledge with the assigned id as a string. -/
def save_scrape (st : Store) (data : Doc) : Option SaveAck × Store :=
  if data.isEmpty || (data.lookup "error").isSome then (none, st)
  else (some ⟨"Data saved successfully", toString st.nextId⟩,
        applyOps st (save_scrape_ops data))

/-! ## Python `str.replace` -/

/-- Auxiliary scan for `replaceAll`: `skip` input characters still to be
consumed by the last replacement are dropped. -/
def raux (pat repl : List Char) : List Char → Nat → List Char
  | [], _ => []
  | _ :: rest, Nat.succ k => raux pat repl rest k
  | c :: rest, 0 =>
      if pat ≠ [] ∧ pat.isPrefixOf (c :: rest) then
        repl ++ raux pat repl rest (pat.length - 1)
      else
        c :: raux pat repl rest 0

/-- Python `s.replace(pat, repl)` for a non-empty pattern: replace every
occurrence, scanning left to right without re-scanning replacements. -/
def replaceAll (pat repl l : List Char) : List Char :=
  raux pat repl l 0

/-- `str.replace` lifted to `String`. -/
def strReplace (s pat repl : String) : String :=
  ⟨replaceAll pat.data repl.data s.data⟩

/-! ## Page fetcher and scraper plumbing -/

/-- Modelled from the spec: `app.common.scrapper.scrape_webpage` is not part
of the sources; per §4.1 it returns a parsed, traversable document tree or a
failure sentinel (`None`) on network/parse failure, never raising. -/
def Fetcher : Type := String → Option Node

/-- An uncaught Python exception escaping a scraper. -/
inductive PyErr where
  | attributeError
deriving DecidableEq

deriving instance DecidableEq for Except

/-- Outcome of one scraper call: the value returned (or exception raised),
the store writes performed, and the number of fetch calls made. -/
structure RunOut (α : Type) where
  ret : Except PyErr α
  ops : List WriteOp
  fetches : Nat
deriving DecidableEq

/-- Python `a or b` for an optional string `a`: `b` whenever `a` is `None`
or empty. -/
def pyOrStr (a : Option String) (b : String) : String :=
  match a with
  | some s => if s.isEmpty then b else s
  | none => b

/-- A cache hit: `existing["id"] = str(existing.pop("_id"))`. -/
def withId (i : Nat) (d : Doc) : Doc :=
  d ++ [("id", .str (toString i))]

/-! ## `app/utils/visa.py` -/

def visaUrl : String := "https://www.immigration.gov.lk/pages_e.php?id=14"

/-- The per-section lookup of the visa page: the first `div.inner` having an
`h4` whose `.string` is non-empty and contains `title`, serialized. -/
def visaSection (title : String) (soup : Node) : Option String :=
  ((findAllTagClass "div" "inner" soup).find? (fun div =>
    (findAllTag "h4" div).any (fun h =>
      match nodeString h with
      | some s => !s.isEmpty && containsSeq title.data s.data
      | none => false))).map decodeContents

/-- The placeholder used when the requested visa section is missing. -/
def sectionNotFound (title : String) : String :=
  "Section " ++ squote ++ title ++ squote ++ " not found."

def get_visa_data (st : Store) (fetch : Fetcher)
    (title : String := "General Information") : RunOut Doc :=
  match findOne st [("page", .str "visa"), ("section_title", .str title)] with
  | some (i, d) => ⟨.ok (withId i d), [], 0⟩
  | none =>
    match fetch visaUrl with
    | none => ⟨.ok [("error", .str "Failed to fetch or parse the page.")], [], 1⟩
    | some soup =>
      let headings := extract_headings soup
      let list_items := extract_list_items soup
      let section_html := visaSection title soup
      let data : Doc :=
        [("url", .str visaUrl), ("page", .str "visa"),
         ("section_title", .str title), ("tags", .strList headings),
         ("lists", .strList list_items),
         ("content", .str (pyOrStr section_html (sectionNotFound title)))]
      ⟨.ok data, save_scrape_ops data, 1⟩

/-! ## `app/utils/transport.py`

The source checks `if not soup` only *after* `soup.find(...)` and the save;
on a failed fetch the attribute access on the `None` sentinel raises, so the
fetch-failure branch of the model is `Except.error .attributeError`, and the
late guard is unreachable on the success path. -/

def transportUrl : String := "https://www.srilanka.travel/transport"

def busbookingUrl : String := "https://www.busbooking.lk/"
def busseatUrl : String := "https://busseat.lk/"
def sltbExpressUrl : String := "https://sltb.express.lk/"
def sltbEseatUrl : String := "https://sltb.eseat.lk/"

/-- The two link-domain rewrites applied to the serialized transport markup. -/
def transportRewrite (s : String) : String :=
  strReplace (strReplace s busbookingUrl busseatUrl) sltbExpressUrl sltbEseatUrl

def transport_data (st : Store) (fetch : Fetcher) : RunOut Doc :=
  match findOne st [("page", .str "transport")] with
  | some (i, d) => ⟨.ok (withId i d), [], 0⟩
  | none =>
    match fetch transportUrl with
    | none => ⟨.error .attributeError, [], 1⟩
    | some soup =>
      match findTagClass "div" "content-inner" soup with
      | none => ⟨.ok [("error", .str "Could not find content-inner section.")], [], 1⟩
      | some contentDiv =>
        let headings := extract_headings contentDiv
        let list_items := extract_list_items contentDiv
        let section_html := transportRewrite (decodeContents contentDiv)
        let data : Doc :=
          [("url", .str transportUrl), ("page", .str "transport"),
           ("section_title", .str "Transport Information"),
           ("tags", .strList headings), ("lists", .strList list_items),
           ("content", .str section_html)]
        ⟨.ok data, save_scrape_ops data, 1⟩

/-! ## `app/utils/top_places.py` -/

def topPlacesUrl : String := "https://traveltrails.lk/top-10-destinations-to-visit-in-sri-lanka-2024/"

def top_places_data (st : Store) (fetch : Fetcher) : RunOut Doc :=
  match findOne st [("page", .str "top_places")] with
  | some (i, d) => ⟨.ok (withId i d), [], 0⟩
  | none =>
    match fetch topPlacesUrl with
    | none => ⟨.ok [("error", .str "Failed to fetch or parse the page.")], [], 1⟩
    | some soup =>
      match findTagClass "div" "e-con-inner" soup with
      | none => ⟨.ok [("error", .str "Could not find entry-content section.")], [], 1⟩
      | some contentDiv =>
        let data : Doc :=
          [("url", .str topPlacesUrl), ("page", .str "top_places"),
           ("section_title", .str "Top Places in Sri Lanka"),
           ("tags", .strList (extract_headings contentDiv)),
           ("lists", .strList (extract_list_items contentDiv)),
           ("content", .str (decodeContents contentDiv))]
        ⟨.ok data, save_scrape_ops data, 1⟩

/-! ## `app/utils/historical_places.py` -/

def historicalUrl : String := "https://sleepingelephantresort.com/blog/top-10-must-see-historical-sites-in-sri-lanka/"

def historical_places_data (st : Store) (fetch : Fetcher) : RunOut Doc :=
  match findOne st [("page", .str "historical_places")] with
  | some (i, d) => ⟨.ok (withId i d), [], 0⟩
  | none =>
    match fetch historicalUrl with
    | none => ⟨.ok [("error", .str "Failed to fetch or parse the page.")], [], 1⟩
    | some soup =>
      match findTagClass "article" "page pdt-60 pdb-80" soup with
      | none => ⟨.ok [("error", .str "Could not find content-inner section.")], [], 1⟩
      | some contentDiv =>
        let data : Doc :=
          [("url", .str historicalUrl), ("page", .str "historical_places"),
           ("section_title", .str "Historical Places in Sri Lanka"),
           ("tags", .strList (extract_headings contentDiv)),
           ("lists", .strList (extract_list_items contentDiv)),
           ("content", .str (decodeContents contentDiv))]
        ⟨.ok data, save_scrape_ops data, 1⟩

/-! ## `app/utils/top_beaches.py` -/

def topBeachesUrl : String := "https://fromsunrisetosunset.com/best-beach-sri-lanka/"

def topBeachesClass : String :=
  "elementor-column elementor-col-50 elementor-top-column elementor-element elementor-element-45564425"

def top_beaches_data (st : Store) (fetch : Fetcher) : RunOut Doc :=
  match findOne st [("page", .str "top_beaches")] with
  | some (i, d) => ⟨.ok (withId i d), [], 0⟩
  | none =>
    match fetch topBeachesUrl with
    | none => ⟨.ok [("error", .str "Failed to fetch or parse the page.")], [], 1⟩
    | some soup =>
      match findTagClass "div" topBeachesClass soup with
      | none => ⟨.ok [("error", .str "Could not find entry-content section.")], [], 1⟩
      | some contentDiv =>
        let data : Doc :=
          [("url", .str topBeachesUrl), ("page", .str "top_beaches"),
           ("section_title", .str "top beaches in Sri Lanka"),
           ("tags", .strList (extract_headings contentDiv)),
           ("lists", .strList (extract_list_items contentDiv)),
           ("content", .str (decodeContents contentDiv))]
        ⟨.ok data, save_scrape_ops data, 1⟩

/-! ## `app/utils/cost_of_living.py` -/

def livingCostUrl : String := "https://www.numbeo.com/cost-of-living/country_result.jsp?country=Sri+Lanka&displayCurrency=USD"

def cost_of_living (st : Store) (fetch : Fetcher)
    (force_scrape : Bool := false) : RunOut Doc :=
  match (if force_scrape then none else findOne st [("page", .str "livingCost")]) with
  | some (i, d) => ⟨.ok (withId i d), [], 0⟩
  | none =>
    match fetch livingCostUrl with
    | none => ⟨.ok [("error", .str "Failed to fetch or parse the page.")], [], 1⟩
    | some soup =>
      match findTagClass "table" "data_wide_table new_bar_table" soup with
      | none => ⟨.ok [("error", .str "Could not find the expected content section.")], [], 1⟩
      | some content =>
        let cleaned := cleanupLivingCost content
        let data : Doc :=
          [("url", .str livingCostUrl), ("page", .str "livingCost"),
           ("section_title", .str "Cost of living Sri Lanka"),
           ("tags", .strList (extract_headings cleaned)),
           ("lists", .strList (extract_list_items cleaned)),
           ("content", .str (decodeContents cleaned))]
        ⟨.ok data, [.replaceOneUpsert [("page", .str "livingCost")] data], 1⟩

/-! ## `app/utils/broadband.py` -/

def lbrace : String := String.singleton (Char.ofNat 123)
def rbrace : String := String.singleton (Char.ofNat 125)

/-- Python repr of the one-entry selector dict used in the broadband error
message. -/
def selectorRepr (cls : String) : String :=
  lbrace ++ squote ++ "class_" ++ squote ++ ": " ++ squote ++ cls ++ squote ++ rbrace

def dialogUrl : String := "https://www.dialog.lk/mobile-broadband/prepaid/plan"
def dialogClass : String := "prepaid-postpaid-container addon-hbb-mbb"
def mobitelUrl : String := "https://mobitel.lk/voice-and-data-plans#Anytime%20Data%20+%20Voice%20Plans"
def mobitelClass : String := "col-md-6 col-lg-9 inner-rightcol-main"

/-- The curated tag allow-list of the broadband scraper. -/
def broadbandAllow : List String := ["h1", "h2", "h3", "table", "td", "tr", "p", "img"]

/-- One iteration of the broadband loop: optional pre-fetch delete, fetch,
select, extract, save. -/
def broadbandPage (fetch : Fetcher) (force_scrape : Bool)
    (url pageKey title selClass : String) : Doc × List WriteOp :=
  let pre : List WriteOp :=
    if force_scrape then [.deleteOne [("page", .str pageKey)]] else []
  match fetch url with
  | none => ([("error", .str ("❌ Failed to fetch: " ++ url))], pre)
  | some soup =>
    match findTagClass "div" selClass soup with
    | none => ([("error", .str ("❌ Selector not found: " ++ selectorRepr selClass))], pre)
    | some sec =>
      let tags := findAllP (fun n => broadbandAllow.contains (nodeTag n)) sec
      let section_html :=
        if tags.isEmpty then decodeContents sec
        else String.join (tags.map renderN)
      let data : Doc :=
        [("url", .str url), ("page", .str pageKey),
         ("section_title", .str title),
         ("tags", .strList (extract_headings sec)),
         ("lists", .strList (extract_list_items sec)),
         ("content", .str section_html)]
      (data, pre ++ save_scrape_ops data)

/-- `broadband_data(force_scrape=True)`: scrape the two provider sub-pages
in order, never reading the cache; always two fetch calls. -/
def broadband_data (fetch : Fetcher) (force_scrape : Bool := true) :
    RunOut (List Doc) :=
  let r1 := broadbandPage fetch force_scrape dialogUrl "broadband_dialog"
    "Dialog Prepaid Broadband Plans" dialogClass
  let r2 := broadbandPage fetch force_scrape mobitelUrl "broadband_mobitel"
    "Mobitel Broadband Plans" mobitelClass
  ⟨.ok [r1.1, r2.1], r1.2 ++ r2.2, 2⟩

/-! ## The refresh endpoint of `main.py` -/

/-- The key list of the `scrape_functions` dict of `refresh_scraped_data`,
in insertion order. -/
def availablePages : List String :=
  ["top_beaches", "historical_places", "livingCost", "visa", "transport",
   "top_places", "broadband"]

/-- The JSON envelope of `POST /api/mobile/scraped/refresh/{page_name}`. -/
inductive RefreshResult where
  | success (message : String) (data : Doc)
  | successList (message : String) (data : List Doc)
  | unknownPage (message : String) (available : List String)
  | serverError
deriving DecidableEq

/-- Wrap a dict-returning scraper; an uncaught exception becomes the generic
HTTP 500 branch. -/
def wrapRefresh (page : String) (r : RunOut Doc) : RunOut RefreshResult :=
  match r.ret with
  | .ok d => ⟨.ok (.success ("Successfully refreshed " ++ page) d), r.ops, r.fetches⟩
  | .error _ => ⟨.ok .serverError, r.ops, r.fetches⟩

/-- `refresh_scraped_data(page_name)`: dispatch to the scraper.  Only
`livingCost` is invoked with `force_scrape=True` (and `broadband` forces by
default); the other five scrapers are called plainly and so serve their
cached record. -/
def refresh_scraped_data (page : String) (st : Store) (fetch : Fetcher) :
    RunOut RefreshResult :=
  if page = "top_beaches" then wrapRefresh page (top_beaches_data st fetch)
  else if page = "historical_places" then wrapRefresh page (historical_places_data st fetch)
  else if page = "livingCost" then wrapRefresh page (cost_of_living st fetch true)
  else if page = "visa" then wrapRefresh page (get_visa_data st fetch)
  else if page = "transport" then wrapRefresh page (transport_data st fetch)
  else if page = "top_places" then wrapRefresh page (top_places_data st fetch)
  else if page = "broadband" then
    let r := broadband_data fetch
    match r.ret with
    | .ok ds => ⟨.ok (.successList ("Successfully refreshed " ++ page) ds), r.ops, r.fetches⟩
    | .error _ => ⟨.ok .serverError, r.ops, r.fetches⟩
  else ⟨.ok (.unknownPage ("Unknown page: " ++ page) availablePages), [], 0⟩

/-! ## Proof infrastructure: the common scraper skeleton

Each of the six read-through scrapers is an instance of this combinator
(witnessed by `rfl`-style equations below); the round-trip and
failure-leaves-store-unchanged arguments are made once, generically. -/

def simpleScrape (flt : DFilter) (url : String) (failRet : Except PyErr Doc)
    (sel : Node → Option Node) (mk : Node → Doc) (missDoc : Doc)
    (wops : Doc → List WriteOp) (st : Store) (fetch : Fetcher) : RunOut Doc :=
  match findOne st flt with
  | some (i, d) => ⟨.ok (withId i d), [], 0⟩
  | none =>
    match fetch url with
    | none => ⟨failRet, [], 1⟩
    | some soup =>
      match sel soup with
      | none => ⟨.ok missDoc, [], 1⟩
      | some target => ⟨.ok (mk target), wops (mk target), 1⟩

/-- The visa record built from a fetched page (the success-path `data` dict
of `get_visa_data`). -/
def visaDocOf (title : String) (soup : Node) : Doc :=
  [("url", .str visaUrl), ("page", .str "visa"),
   ("section_title", .str title),
   ("tags", .strList (extract_headings soup)),
   ("lists", .strList (extract_list_items soup)),
   ("content", .str (pyOrStr (visaSection title soup) (sectionNotFound title)))]

def transportDocOf (contentDiv : Node) : Doc :=
  [("url", .str transportUrl), ("page", .str "transport"),
   ("section_title", .str "Transport Information"),
   ("tags", .strList (extract_headings contentDiv)),
   ("lists", .strList (extract_list_items contentDiv)),
   ("content", .str (transportRewrite (decodeContents contentDiv)))]

def topPlacesDocOf (contentDiv : Node) : Doc :=
  [("url", .str topPlacesUrl), ("page", .str "top_places"),
   ("section_title", .str "Top Places in Sri Lanka"),
   ("tags", .strList (extract_headings contentDiv)),
   ("lists", .strList (extract_list_items contentDiv)),
   ("content", .str (decodeContents contentDiv))]

def historicalDocOf (contentDiv : Node) : Doc :=
  [("url", .str historicalUrl), ("page", .str "historical_places"),
   ("section_title", .str "Historical Places in Sri Lanka"),
   ("tags", .strList (extract_headings contentDiv)),
   ("lists", .strList (extract_list_items contentDiv)),
   ("content", .str (decodeContents contentDiv))]

def topBeachesDocOf (contentDiv : Node) : Doc :=
  [("url", .str topBeachesUrl), ("page", .str "top_beaches"),
   ("section_title", .str "top beaches in Sri Lanka"),
   ("tags", .strList (extract_headings contentDiv)),
   ("lists", .strList (extract_list_items contentDiv)),
   ("content", .str (decodeContents contentDiv))]

def livingCostDocOf (content : Node) : Doc :=
  [("url", .str livingCostUrl), ("page", .str "livingCost"),
   ("section_title", .str "Cost of living Sri Lanka"),
   ("tags", .strList (extract_headings (cleanupLivingCost content))),
   ("lists", .strList (extract_list_items (cleanupLivingCost content))),
   ("content", .str (decodeContents (cleanupLivingCost content)))]

/-! ## Spec-side definition for the extractor claim

Modelled from the spec (§4.2): the text content of every heading element at
any nesting level, in document order, across all six heading levels. -/

def isHeadingTag (m : Node) : Bool :=
  (List.range' 1 6).any (fun i => nodeTag m == "h" ++ toString i)

def documentOrderHeadings (soup : Node) : List String :=
  (findAllP isHeadingTag soup).map getTextStrip

/-! ## Concrete fixtures -/

def nl (l : List Node) : NodeList := l.foldr NodeList.cons NodeList.nil

def el (t : String) (cls : List String) (ch : List Node) : Node :=
  .elem t cls (nl ch)

def tx (s : String) : Node := .text s

def emptyStore : Store := ⟨[], 0⟩

/-- A fetcher whose every fetch fails. -/
def fetchNone : Fetcher := fun _ => none

def beachClasses : List String :=
  ["elementor-column", "elementor-col-50", "elementor-top-column",
   "elementor-element", "elementor-element-45564425"]

def beachDiv : Node := el "div" beachClasses [el "h2" [] [tx " Beach "], tx "NEW"]

def beachPage : Node := el "html" [] [el "body" [] [beachDiv]]

def beachFetch : Fetcher :=
  fun u => if u == topBeachesUrl then some beachPage else none

/-- A previously cached top-beaches record whose content is stale. -/
def oldBeachDoc : Doc :=
  [("url", .str topBeachesUrl), ("page", .str "top_beaches"),
   ("section_title", .str "top beaches in Sri Lanka"),
   ("tags", .strList []), ("lists", .strList []), ("content", .str "OLD")]

def stTopBeaches : Store := ⟨[(0, oldBeachDoc)], 1⟩

/-- The spec's worked extractor example: `<h2> Beach </h2><h3>Safety</h3>`. -/
def exHeads : Node :=
  el "div" [] [el "h2" [] [tx " Beach "], el "h3" [] [tx "Safety"]]

/-- The same two headings with the levels interleaved the other way. -/
def exHeadsSwapped : Node :=
  el "div" [] [el "h3" [] [tx "Safety"], el "h2" [] [tx " Beach "]]

/-- A visa page whose single `inner` div has no matching `h4` heading. -/
def visaPageNoSection : Node :=
  el "html" []
    [el "div" ["inner"]
      [el "h4" [] [tx "Something Else"], el "ul" [] [el "li" [] [tx " item "]]]]

def visaFetchNoSection : Fetcher :=
  fun u => if u == visaUrl then some visaPageNoSection else none

/-- A visa page whose `inner` div carries the requested section. -/
def visaPageHit : Node :=
  el "html" []
    [el "div" ["inner"]
      [el "h4" [] [tx "General Information"], tx "Visa details here"]]

def visaFetchHit : Fetcher :=
  fun u => if u == visaUrl then some visaPageHit else none

/-- A transport page with both rewritable link domains in its target div. -/
def transportDiv : Node :=
  el "div" ["content-inner"]
    [el "a" [] [tx "book"],
     tx "https://www.busbooking.lk/colombo and https://sltb.express.lk/kandy"]

def transportPage : Node := el "html" [] [el "body" [] [transportDiv]]

def transportFetch : Fetcher :=
  fun u => if u == transportUrl then some transportPage else none

def dialogDivClasses : List String := ["prepaid-postpaid-container", "addon-hbb-mbb"]

def mobitelDivClasses : List String := ["col-md-6", "col-lg-9", "inner-rightcol-main"]

def dialogPage : Node :=
  el "html" [] [el "div" dialogDivClasses [el "h2" [] [tx "Plans"], tx "dialog plans"]]

def mobitelPage : Node :=
  el "html" [] [el "div" mobitelDivClasses [el "p" [] [tx "mobitel plans"]]]

def broadbandFetch : Fetcher :=
  fun u =>
    if u == dialogUrl then some dialogPage
    else if u == mobitelUrl then some mobitelPage
    else none

/-- A stale broadband-dialog record, for the fetch-failure counterexample. -/
def oldDialogDoc : Doc :=
  [("url", .str dialogUrl), ("page", .str "broadband_dialog"),
   ("section_title", .str "Dialog Prepaid Broadband Plans"),
   ("tags", .strList []), ("lists", .strList []), ("content", .str "OLD")]

def stDialog : Store := ⟨[(0, oldDialogDoc)], 1⟩

/-- A living-cost page: table with icon, edit link and a three-cell row. -/
def livingCostTable : Node :=
  el "table" ["data_wide_table", "new_bar_table"]
    [el "tr" []
      [el "td" [] [tx "Meal"], el "td" [] [tx "2.5"],
       el "td" [] [el "a" ["edit"] [tx "Edit"]]]]

def livingCostPage : Node := el "html" [] [el "body" [] [livingCostTable]]

def livingCostFetch : Fetcher :=
  fun u => if u == livingCostUrl then some livingCostPage else none

/-- A stored visa record (the one a first fresh scrape would persist). -/
def visaStoredDoc : Doc := visaDocOf "General Information" visaPageHit

def stVisa : Store := ⟨[(0, visaStoredDoc)], 1⟩

/-- A stored living-cost record. -/
def livingStoredDoc : Doc :=
  [("url", .str livingCostUrl), ("page", .str "livingCost"),
   ("section_title", .str "Cost of living Sri Lanka"),
   ("tags", .strList []), ("lists", .strList []), ("content", .str "OLD")]

def stLiving : Store := ⟨[(0, livingStoredDoc)], 1⟩

/-- A fetcher for which the dialog page fails but the mobitel page loads. -/
def mobitelOnlyFetch : Fetcher :=
  fun u => if u == mobitelUrl then some mobitelPage else none

/-- The record the broadband scraper builds for the mobitel page. -/
def mobitelFreshDoc : Doc :=
  (broadbandPage mobitelOnlyFetch true mobitelUrl "broadband_mobitel"
    "Mobitel Broadband Plans" mobitelClass).1

/-! # Theorems -/

/-! ## Small store-level helper lemmas -/

theorem lookup_append_of_ne (d e : Doc) (k : String)
    (h : ∀ kv ∈ e, (k == kv.1) = false) :
    (d ++ e).lookup k = d.lookup k := by
  induction d with
  | nil =>
      simp only [List.nil_append]
      induction e with
      | nil => rfl
      | cons kv rest ih =>
          have hk := h kv (by simp)
          simp only [List.lookup, hk]
          exact ih (fun kv hkv => h kv (by simp [hkv]))
  | cons a d ih =>
      simp only [List.cons_append, List.lookup]
      cases hka : k == a.1 with
      | true => rfl
      | false => exact ih

theorem lookup_withId (d : Doc) (i : Nat) (k : String) (hk : (k == "id") = false) :
    (withId i d).lookup k = d.lookup k := by
  unfold withId
  exact lookup_append_of_ne d _ k (by intro kv hkv; simp at hkv; simp [hkv, hk])

theorem applyOps_nil (st : Store) : applyOps st [] = st := rfl

theorem lookup_append_of_none (d e : Doc) (k : String) (h : d.lookup k = none) :
    (d ++ e).lookup k = e.lookup k := by
  induction d with
  | nil => rfl
  | cons a d ih =>
      simp only [List.lookup, List.cons_append] at h ⊢
      cases hka : k == a.1 with
      | true => simp [hka] at h
      | false => simp only [hka] at h ⊢; exact ih h

/-! ## C7 -/

/-- C7: `save_scrape` refuses any falsy payload or payload carrying an
`error` key, performing no insert and returning `None`; for every other
payload it inserts exactly one record (appended with the next id) and
returns an acknowledgement whose `id` is the assigned id as a string. -/
theorem save_scrape_refuses_errors_and_inserts_once (st : Store) (data : Doc) :
    ((data.isEmpty || (data.lookup "error").isSome) = true →
       save_scrape st data = (none, st)) ∧
    ((data.isEmpty || (data.lookup "error").isSome) = false →
       save_scrape st data =
         (some ⟨"Data saved successfully", toString st.nextId⟩,
          ⟨st.docs ++ [(st.nextId, data)], st.nextId + 1⟩)) := by
  constructor
  · intro h
    simp [save_scrape, h]
  · intro h
    simp [save_scrape, save_scrape_ops, h, applyOps, applyOp]

/-- Witness for C7 at two concrete payloads: an error-marked payload is
refused with the store untouched; a well-formed record is inserted with id
`"0"`. -/
theorem save_scrape_refuses_errors_and_inserts_once_witness :
    save_scrape emptyStore [("error", Val.str "boom")] = (none, emptyStore) ∧
    save_scrape emptyStore oldBeachDoc =
      (some ⟨"Data saved successfully", "0"⟩, ⟨[(0, oldBeachDoc)], 1⟩) := by
  refine ⟨(save_scrape_refuses_errors_and_inserts_once emptyStore _).1 (by decide), ?_⟩
  have h := (save_scrape_refuses_errors_and_inserts_once emptyStore oldBeachDoc).2 (by decide)
  simpa using h

/-! ## C3 -/

/-- C3 is a code bug: on a cache miss with a failed fetch, `transport_data`
evaluates `soup.find(...)` on the `None` sentinel before its misplaced
`if not soup` guard, raising `AttributeError` instead of returning an error
object. -/
theorem transport_fetch_failure_raises :
    transport_data emptyStore fetchNone = ⟨.error .attributeError, [], 1⟩ ∧
    ¬ (transport_data emptyStore fetchNone).ret =
        .ok [("error", Val.str "Failed to fetch or parse the page.")] := by
  decide

/-! ## C1 -/

/-- C1 is a code bug: the refresh endpoint maps `top_beaches` (and four other
pages) to its scraper with no force flag, so with a cached record the
"forced refresh" performs zero fetches, zero store writes, and returns the
stale cached record, while an actual scrape of the same page would return
different content. -/
theorem refresh_returns_stale_cache :
    refresh_scraped_data "top_beaches" stTopBeaches beachFetch =
      ⟨.ok (.success "Successfully refreshed top_beaches" (withId 0 oldBeachDoc)), [], 0⟩ ∧
    (withId 0 oldBeachDoc).lookup "content" = some (.str "OLD") ∧
    (top_beaches_data emptyStore beachFetch).ret = .ok (topBeachesDocOf beachDiv) ∧
    (topBeachesDocOf beachDiv).lookup "content" = some (.str "<h2> Beach </h2>NEW") := by
  decide

/-! ## C6 -/

/-- C6: when no `inner` div of the fetched visa page has an `h4` containing
the requested title, the built record's content is exactly
`Section '<title>' not found.` and that record is still persisted (a single
plain insert). -/
theorem visa_missing_section_placeholder_persisted
    (st : Store) (f : Fetcher) (title : String) (soup : Node)
    (hmiss : findOne st [("page", .str "visa"), ("section_title", .str title)] = none)
    (hfetch : f visaUrl = some soup)
    (hsec : visaSection title soup = none) :
    (get_visa_data st f title).ret = .ok (visaDocOf title soup) ∧
    (visaDocOf title soup).lookup "content" = some (.str (sectionNotFound title)) ∧
    (get_visa_data st f title).ops = [.insertOne (visaDocOf title soup)] := by
  refine ⟨?_, ?_, ?_⟩
  · simp [get_visa_data, hmiss, hfetch, visaDocOf]
  · simp [visaDocOf, List.lookup, hsec, pyOrStr]
  · simp [get_visa_data, hmiss, hfetch, visaDocOf, save_scrape_ops, List.lookup]

/-- Witness for C6: the concrete visa page whose only `inner` div has the
heading `Something Else`; requesting `General Information` yields the
placeholder and the record is persisted. -/
theorem visa_missing_section_placeholder_persisted_witness :
    (get_visa_data emptyStore visaFetchNoSection "General Information").ret =
      .ok (visaDocOf "General Information" visaPageNoSection) ∧
    (visaDocOf "General Information" visaPageNoSection).lookup "content" =
      some (.str (sectionNotFound "General Information")) ∧
    (get_visa_data emptyStore visaFetchNoSection "General Information").ops =
      [.insertOne (visaDocOf "General Information" visaPageNoSection)] :=
  visa_missing_section_placeholder_persisted emptyStore visaFetchNoSection
    "General Information" visaPageNoSection rfl rfl rfl

/-! ## C10 -/

/-- C10: the two return paths of the visa scraper (representative of all
page scrapers) are differently shaped: a cache hit returns the stored
record with an appended `id` string field, a fresh scrape returns the newly
built six-field record with no `id` key at all; concretely, a fresh scrape
followed by a cache hit for the same page yields results with different key
sets. -/
theorem visa_fresh_and_hit_shapes_differ (st : Store) (f : Fetcher) (title : String) :
    (∀ i d, findOne st [("page", .str "visa"), ("section_title", .str title)] = some (i, d) →
       d.lookup "id" = none →
       (get_visa_data st f title).ret = .ok (withId i d) ∧
       (withId i d).lookup "id" = some (.str (toString i))) ∧
    (∀ soup, findOne st [("page", .str "visa"), ("section_title", .str title)] = none →
       f visaUrl = some soup →
       (get_visa_data st f title).ret = .ok (visaDocOf title soup) ∧
       (visaDocOf title soup).lookup "id" = none ∧
       (visaDocOf title soup).map Prod.fst =
         ["url", "page", "section_title", "tags", "lists", "content"]) ∧
    ((get_visa_data emptyStore visaFetchHit).ret = .ok visaStoredDoc ∧
     (get_visa_data (applyOps emptyStore (get_visa_data emptyStore visaFetchHit).ops)
         visaFetchHit).ret = .ok (withId 0 visaStoredDoc) ∧
     (withId 0 visaStoredDoc).map Prod.fst ≠ visaStoredDoc.map Prod.fst) := by
  refine ⟨?_, ?_, ?_⟩
  · intro i d hfind hid
    constructor
    · simp [get_visa_data, hfind]
    · unfold withId
      rw [lookup_append_of_none _ _ _ hid]
      simp [List.lookup]
  · intro soup hfind hfetch
    refine ⟨?_, ?_, ?_⟩
    · simp [get_visa_data, hfind, hfetch, visaDocOf]
    · simp [visaDocOf, List.lookup]
    · simp [visaDocOf]
  · refine ⟨by decide, by decide, by decide⟩

/-- Witness for C10: the hit conjunct at the populated visa store and the
fresh conjunct at the empty store. -/
theorem visa_fresh_and_hit_shapes_differ_witness :
    ((get_visa_data stVisa visaFetchHit).ret = .ok (withId 0 visaStoredDoc) ∧
     (withId 0 visaStoredDoc).lookup "id" = some (.str "0")) ∧
    ((get_visa_data emptyStore visaFetchHit).ret =
       .ok (visaDocOf "General Information" visaPageHit) ∧
     (visaDocOf "General Information" visaPageHit).lookup "id" = none ∧
     (visaDocOf "General Information" visaPageHit).map Prod.fst =
       ["url", "page", "section_title", "tags", "lists", "content"]) := by
  constructor
  · exact (visa_fresh_and_hit_shapes_differ stVisa visaFetchHit "General Information").1
      0 visaStoredDoc rfl (by decide)
  · exact (visa_fresh_and_hit_shapes_differ emptyStore visaFetchHit "General Information").2.1
      visaPageHit rfl rfl

/-! ## C2: extractor order machinery -/

mutual

theorem collectN_filter (p q : Node → Bool) (h : ∀ m, p m = true → q m = true) :
    ∀ n, collectN p n = (collectN q n).filter p
  | .text s => by
      cases hq : q (.text s) with
      | true => cases hp : p (.text s) <;> simp [collectN, hq, hp]
      | false =>
          have hp : p (.text s) = false := by
            cases hp : p (.text s)
            · rfl
            · exact Bool.noConfusion ((h _ hp).symm.trans hq)
          simp [collectN, hq, hp]
  | .elem t c ch => by
      have ih := collectL_filter p q h ch
      cases hq : q (.elem t c ch) with
      | true =>
          cases hp : p (.elem t c ch) <;>
            simp [collectN, hq, hp, List.filter_append, ih]
      | false =>
          have hp : p (.elem t c ch) = false := by
            cases hp : p (.elem t c ch)
            · rfl
            · exact Bool.noConfusion ((h _ hp).symm.trans hq)
          simp [collectN, hq, hp, List.filter_append, ih]

theorem collectL_filter (p q : Node → Bool) (h : ∀ m, p m = true → q m = true) :
    ∀ ns, collectL p ns = (collectL q ns).filter p
  | .nil => by simp [collectL]
  | .cons n ns => by
      have ih1 := collectN_filter p q h n
      have ih2 := collectL_filter p q h ns
      simp [collectL, List.filter_append, ih1, ih2]

end

mutual

theorem collectN_mem (q : Node → Bool) :
    ∀ n m, m ∈ collectN q n → q m = true
  | .text s, m => by
      cases hq : q (.text s) <;> simp [collectN, hq]
      rintro rfl; exact hq
  | .elem t c ch, m => by
      cases hq : q (.elem t c ch) with
      | true =>
          intro hm
          simp [collectN, hq] at hm
          rcases hm with rfl | hm
          · exact hq
          · exact collectL_mem q ch m hm
      | false =>
          intro hm
          simp [collectN, hq] at hm
          exact collectL_mem q ch m hm

theorem collectL_mem (q : Node → Bool) :
    ∀ ns m, m ∈ collectL q ns → q m = true
  | .nil, m => by simp [collectL]
  | .cons n ns, m => by
      simp only [collectL, List.mem_append]
      rintro (hm | hm)
      · exact collectN_mem q n m hm
      · exact collectL_mem q ns m hm

end

theorem flatMap_congr_mem {α β : Type} {l : List α} {f g : α → List β}
    (h : ∀ a ∈ l, f a = g a) : l.flatMap f = l.flatMap g := by
  induction l with
  | nil => rfl
  | cons a l ih =>
      simp only [List.flatMap_cons]
      rw [h a (by simp), ih (fun a ha => h a (by simp [ha]))]

/-- Partitioning a list of nodes by tag name, for pairwise-distinct tags
covering every element, is a permutation of the list. -/
theorem flatMap_filter_perm (ts : List String) :
    ∀ H : List Node, ts.Nodup → (∀ x ∈ H, nodeTag x ∈ ts) →
    List.Perm (ts.flatMap fun t => H.filter (fun m => nodeTag m == t)) H := by
  induction ts with
  | nil =>
      intro H _ hall
      have hH : H = [] := by
        cases H with
        | nil => rfl
        | cons x xs => exact absurd (hall x (by simp)) (by simp)
      simp [hH]
  | cons t ts ih =>
      intro H hnd hall
      simp only [List.flatMap_cons]
      have hre : (ts.flatMap fun t2 => H.filter (fun m => nodeTag m == t2)) =
          ts.flatMap fun t2 =>
            (H.filter fun m => !(nodeTag m == t)).filter (fun m => nodeTag m == t2) := by
        apply flatMap_congr_mem
        intro t2 ht2
        rw [List.filter_filter]
        apply List.filter_congr
        intro m _
        cases hmt : nodeTag m == t2 with
        | false => simp
        | true =>
            have hm2 : nodeTag m = t2 := by simpa using hmt
            have hne : (nodeTag m == t) = false := by
              have ht2t : t2 ≠ t := fun he => (List.nodup_cons.mp hnd).1 (he ▸ ht2)
              simp [hm2, ht2t]
            simp [hmt, hne]
      rw [hre]
      have hall2 : ∀ x ∈ (H.filter fun m => !(nodeTag m == t)), nodeTag x ∈ ts := by
        intro x hx
        rcases List.mem_filter.mp hx with ⟨hxH, hxne⟩
        have := hall x hxH
        simp only [List.mem_cons] at this
        rcases this with he | hts
        · simp [he] at hxne
        · exact hts
      have hperm := ih (H.filter fun m => !(nodeTag m == t)) (List.nodup_cons.mp hnd).2 hall2
      exact (List.Perm.append_left (H.filter (fun m => nodeTag m == t)) hperm).trans
        (List.filter_append_perm _ H)

/-- C2 counterexample: with an `h3` preceding an `h2`, `extract_headings`
returns all `h2` texts before all `h3` texts, which is not document order. -/
theorem extract_headings_not_document_order :
    extract_headings exHeadsSwapped = ["Beach", "Safety"] ∧
    documentOrderHeadings exHeadsSwapped = ["Safety", "Beach"] ∧
    extract_headings exHeadsSwapped ≠ documentOrderHeadings exHeadsSwapped := by
  decide

/-- C2 (amended): `extract_headings` returns the stripped text of every
heading element (all six levels, any depth) grouped by level — each level
segment in document order — and is a permutation of the document-order
heading list; document order is attained on the spec's example
`<h2> Beach </h2><h3>Safety</h3>`. -/
theorem extract_headings_grouped_by_level (soup : Node) :
    List.Perm (extract_headings soup) (documentOrderHeadings soup) ∧
    (∀ i ∈ List.range' 1 6,
      (findAllTag ("h" ++ toString i) soup).map getTextStrip =
        ((findAllP isHeadingTag soup).filter
          (fun m => nodeTag m == "h" ++ toString i)).map getTextStrip) ∧
    extract_headings exHeads = ["Beach", "Safety"] := by
  have hfilter : ∀ i ∈ List.range' 1 6, findAllTag ("h" ++ toString i) soup =
      (findAllP isHeadingTag soup).filter
        (fun m => nodeTag m == "h" ++ toString i) := by
    intro i hi
    unfold findAllTag findAllP
    refine collectL_filter _ _ (fun m hm => ?_) (nodeChildren soup)
    simp only [isHeadingTag, List.any_eq_true]
    exact ⟨i, hi, hm⟩
  refine ⟨?_, fun i hi => by rw [hfilter i hi], by decide⟩
  have h1 : extract_headings soup =
      ((List.range' 1 6).flatMap (fun i =>
        (findAllP isHeadingTag soup).filter
          (fun m => nodeTag m == "h" ++ toString i))).map getTextStrip := by
    unfold extract_headings
    rw [List.map_flatMap]
    exact flatMap_congr_mem (fun i hi => by rw [hfilter i hi])
  rw [h1]
  unfold documentOrderHeadings
  apply List.Perm.map
  have h2 : (List.range' 1 6).flatMap (fun i =>
      (findAllP isHeadingTag soup).filter
        (fun m => nodeTag m == "h" ++ toString i)) =
      ((List.range' 1 6).map (fun i => "h" ++ toString i)).flatMap (fun t =>
        (findAllP isHeadingTag soup).filter (fun m => nodeTag m == t)) := by
    rw [List.flatMap_map]
  rw [h2]
  apply flatMap_filter_perm
  · decide
  · intro x hx
    have hh := collectL_mem isHeadingTag (nodeChildren soup) x hx
    simp only [isHeadingTag, List.any_eq_true] at hh
    rcases hh with ⟨i, hi, hti⟩
    exact List.mem_map.mpr ⟨i, hi, (eq_of_beq hti).symm⟩

/-- Witness for the amended C2 statement at a concrete subtree and level. -/
theorem extract_headings_grouped_by_level_witness :
    List.Perm (extract_headings exHeadsSwapped) (documentOrderHeadings exHeadsSwapped) ∧
    (findAllTag "h2" exHeadsSwapped).map getTextStrip =
      ((findAllP isHeadingTag exHeadsSwapped).filter
        (fun m => nodeTag m == "h2")).map getTextStrip :=
  ⟨(extract_headings_grouped_by_level exHeadsSwapped).1,
   (extract_headings_grouped_by_level exHeadsSwapped).2.1 2 (by decide)⟩

/-! ## C4/C5: the generic read-through argument -/

theorem visa_eq_simple (st : Store) (f : Fetcher) (title : String) :
    get_visa_data st f title = simpleScrape
      [("page", .str "visa"), ("section_title", .str title)] visaUrl
      (.ok [("error", .str "Failed to fetch or parse the page.")])
      some (fun soup => visaDocOf title soup)
      [("error", .str "unreachable")] save_scrape_ops st f := rfl

theorem transport_eq_simple (st : Store) (f : Fetcher) :
    transport_data st f = simpleScrape
      [("page", .str "transport")] transportUrl (.error .attributeError)
      (findTagClass "div" "content-inner") transportDocOf
      [("error", .str "Could not find content-inner section.")]
      save_scrape_ops st f := rfl

theorem top_places_eq_simple (st : Store) (f : Fetcher) :
    top_places_data st f = simpleScrape
      [("page", .str "top_places")] topPlacesUrl
      (.ok [("error", .str "Failed to fetch or parse the page.")])
      (findTagClass "div" "e-con-inner") topPlacesDocOf
      [("error", .str "Could not find entry-content section.")]
      save_scrape_ops st f := rfl

theorem historical_eq_simple (st : Store) (f : Fetcher) :
    historical_places_data st f = simpleScrape
      [("page", .str "historical_places")] historicalUrl
      (.ok [("error", .str "Failed to fetch or parse the page.")])
      (findTagClass "article" "page pdt-60 pdb-80") historicalDocOf
      [("error", .str "Could not find content-inner section.")]
      save_scrape_ops st f := rfl

theorem top_beaches_eq_simple (st : Store) (f : Fetcher) :
    top_beaches_data st f = simpleScrape
      [("page", .str "top_beaches")] topBeachesUrl
      (.ok [("error", .str "Failed to fetch or parse the page.")])
      (findTagClass "div" topBeachesClass) topBeachesDocOf
      [("error", .str "Could not find entry-content section.")]
      save_scrape_ops st f := rfl

theorem cost_of_living_eq_simple (st : Store) (f : Fetcher) :
    cost_of_living st f false = simpleScrape
      [("page", .str "livingCost")] livingCostUrl
      (.ok [("error", .str "Failed to fetch or parse the page.")])
      (findTagClass "table" "data_wide_table new_bar_table") livingCostDocOf
      [("error", .str "Could not find the expected content section.")]
      (fun d => [.replaceOneUpsert [("page", .str "livingCost")] d]) st f := rfl

/-- On a fetch failure the generic scraper performs no store write at all:
the store after the call is the store before it. -/
theorem simpleScrape_fetchfail_leaves_store
    (flt : DFilter) (url : String) (failRet : Except PyErr Doc)
    (sel : Node → Option Node) (mk : Node → Doc) (missDoc : Doc)
    (wops : Doc → List WriteOp) (st : Store) (f : Fetcher)
    (hf : f url = none) :
    (simpleScrape flt url failRet sel mk missDoc wops st f).ops = [] ∧
    applyOps st (simpleScrape flt url failRet sel mk missDoc wops st f).ops = st := by
  cases h0 : findOne st flt with
  | some nd => simp [simpleScrape, h0, applyOps_nil]
  | none => simp [simpleScrape, h0, hf, applyOps_nil]

/-- The generic read-through round trip: if a call returns a document that
is not an error object, then the follow-up call on the written-through store
is a cache hit: zero fetches, and the same tags, lists and content. -/
theorem simpleScrape_roundtrip
    (flt : DFilter) (url : String) (failRet : Except PyErr Doc)
    (sel : Node → Option Node) (mk : Node → Doc) (missDoc : Doc)
    (wops : Doc → List WriteOp)
    (hfail : ∀ d, failRet = Except.ok d → (d.lookup "error").isSome)
    (hmiss : (missDoc.lookup "error").isSome)
    (hmk_match : ∀ n, matchesFilter flt (mk n) = true)
    (hwops : ∀ (st : Store) n, findOne st flt = none →
       applyOps st (wops (mk n)) = ⟨st.docs ++ [(st.nextId, mk n)], st.nextId + 1⟩)
    (st : Store) (f : Fetcher) (d : Doc)
    (h1 : (simpleScrape flt url failRet sel mk missDoc wops st f).ret = .ok d)
    (h2 : d.lookup "error" = none) :
    (simpleScrape flt url failRet sel mk missDoc wops
       (applyOps st (simpleScrape flt url failRet sel mk missDoc wops st f).ops)
       f).fetches = 0 ∧
    ∃ d2, (simpleScrape flt url failRet sel mk missDoc wops
       (applyOps st (simpleScrape flt url failRet sel mk missDoc wops st f).ops)
       f).ret = .ok d2 ∧
      d2.lookup "tags" = d.lookup "tags" ∧
      d2.lookup "lists" = d.lookup "lists" ∧
      d2.lookup "content" = d.lookup "content" := by
  cases h0 : findOne st flt with
  | some nd =>
      obtain ⟨i, dd⟩ := nd
      have hops : (simpleScrape flt url failRet sel mk missDoc wops st f).ops = [] := by
        simp [simpleScrape, h0]
      have hret : (simpleScrape flt url failRet sel mk missDoc wops st f).ret =
          .ok (withId i dd) := by
        simp [simpleScrape, h0]
      rw [hret] at h1
      have hd : withId i dd = d := Except.ok.inj h1
      rw [hops, applyOps_nil]
      refine ⟨by simp [simpleScrape, h0], withId i dd, by simp [simpleScrape, h0], ?_, ?_, ?_⟩ <;>
        rw [hd]
  | none =>
      cases hf : f url with
      | none =>
          have hfr : failRet = .ok d := by
            simpa [simpleScrape, h0, hf] using h1
          have hsome := hfail d hfr
          rw [h2] at hsome
          simp at hsome
      | some soup =>
          cases hs : sel soup with
          | none =>
              have hd : missDoc = d := by
                have := h1
                simp [simpleScrape, h0, hf, hs] at this
                exact this
              rw [hd, h2] at hmiss
              simp at hmiss
          | some n =>
              have hret : (simpleScrape flt url failRet sel mk missDoc wops st f).ret =
                  .ok (mk n) := by
                simp [simpleScrape, h0, hf, hs]
              have hops : (simpleScrape flt url failRet sel mk missDoc wops st f).ops =
                  wops (mk n) := by
                simp [simpleScrape, h0, hf, hs]
              rw [hret] at h1
              have hd : mk n = d := Except.ok.inj h1
              rw [hops, hwops st n h0]
              have hfind2 : findOne ⟨st.docs ++ [(st.nextId, mk n)], st.nextId + 1⟩ flt =
                  some (st.nextId, mk n) := by
                unfold findOne at h0 ⊢
                simp only [List.find?_append, h0, Option.none_or]
                simp [List.find?, hmk_match n]
              refine ⟨by simp [simpleScrape, hfind2],
                withId st.nextId (mk n), by simp [simpleScrape, hfind2], ?_, ?_, ?_⟩ <;>
                rw [← hd] <;> exact lookup_withId _ _ _ (by decide)

/-- C4 (amended): each of the six cache-checking scrapers is a read-through
cache — a second run after a successful non-error first run performs zero
fetches and returns the same tags, lists and content — while
`broadband_data` (whose `force_scrape` defaults to `True` and which never
reads the cache) performs two fetches on every call. -/
theorem six_scrapers_roundtrip_broadband_refetches :
    (∀ st f (d : Doc), (get_visa_data st f).ret = .ok d → d.lookup "error" = none →
       (get_visa_data (applyOps st (get_visa_data st f).ops) f).fetches = 0 ∧
       ∃ d2, (get_visa_data (applyOps st (get_visa_data st f).ops) f).ret = .ok d2 ∧
         d2.lookup "tags" = d.lookup "tags" ∧ d2.lookup "lists" = d.lookup "lists" ∧
         d2.lookup "content" = d.lookup "content") ∧
    (∀ st f (d : Doc), (transport_data st f).ret = .ok d → d.lookup "error" = none →
       (transport_data (applyOps st (transport_data st f).ops) f).fetches = 0 ∧
       ∃ d2, (transport_data (applyOps st (transport_data st f).ops) f).ret = .ok d2 ∧
         d2.lookup "tags" = d.lookup "tags" ∧ d2.lookup "lists" = d.lookup "lists" ∧
         d2.lookup "content" = d.lookup "content") ∧
    (∀ st f (d : Doc), (top_places_data st f).ret = .ok d → d.lookup "error" = none →
       (top_places_data (applyOps st (top_places_data st f).ops) f).fetches = 0 ∧
       ∃ d2, (top_places_data (applyOps st (top_places_data st f).ops) f).ret = .ok d2 ∧
         d2.lookup "tags" = d.lookup "tags" ∧ d2.lookup "lists" = d.lookup "lists" ∧
         d2.lookup "content" = d.lookup "content") ∧
    (∀ st f (d : Doc), (historical_places_data st f).ret = .ok d → d.lookup "error" = none →
       (historical_places_data (applyOps st (historical_places_data st f).ops) f).fetches = 0 ∧
       ∃ d2, (historical_places_data (applyOps st (historical_places_data st f).ops) f).ret = .ok d2 ∧
         d2.lookup "tags" = d.lookup "tags" ∧ d2.lookup "lists" = d.lookup "lists" ∧
         d2.lookup "content" = d.lookup "content") ∧
    (∀ st f (d : Doc), (top_beaches_data st f).ret = .ok d → d.lookup "error" = none →
       (top_beaches_data (applyOps st (top_beaches_data st f).ops) f).fetches = 0 ∧
       ∃ d2, (top_beaches_data (applyOps st (top_beaches_data st f).ops) f).ret = .ok d2 ∧
         d2.lookup "tags" = d.lookup "tags" ∧ d2.lookup "lists" = d.lookup "lists" ∧
         d2.lookup "content" = d.lookup "content") ∧
    (∀ st f (d : Doc), (cost_of_living st f false).ret = .ok d → d.lookup "error" = none →
       (cost_of_living (applyOps st (cost_of_living st f false).ops) f false).fetches = 0 ∧
       ∃ d2, (cost_of_living (applyOps st (cost_of_living st f false).ops) f false).ret = .ok d2 ∧
         d2.lookup "tags" = d.lookup "tags" ∧ d2.lookup "lists" = d.lookup "lists" ∧
         d2.lookup "content" = d.lookup "content") ∧
    (∀ f force, (broadband_data f force).fetches = 2) := by
  refine ⟨?_, ?_, ?_, ?_, ?_, ?_, fun f force => rfl⟩
  · intro st f d h1 h2
    simp only [visa_eq_simple] at h1 ⊢
    exact simpleScrape_roundtrip _ _ _ _ _ _ _
      (fun d h => by cases Except.ok.inj h; simp [List.lookup])
      (by simp [List.lookup])
      (fun n => by simp [matchesFilter, visaDocOf, List.lookup])
      (fun st n h0 => by
        simp [save_scrape_ops, visaDocOf, List.lookup, applyOps, applyOp])
      st f d h1 h2
  · intro st f d h1 h2
    simp only [transport_eq_simple] at h1 ⊢
    exact simpleScrape_roundtrip _ _ _ _ _ _ _
      (fun d h => Except.noConfusion h)
      (by simp [List.lookup])
      (fun n => by simp [matchesFilter, transportDocOf, List.lookup])
      (fun st n h0 => by
        simp [save_scrape_ops, transportDocOf, List.lookup, applyOps, applyOp])
      st f d h1 h2
  · intro st f d h1 h2
    simp only [top_places_eq_simple] at h1 ⊢
    exact simpleScrape_roundtrip _ _ _ _ _ _ _
      (fun d h => by cases Except.ok.inj h; simp [List.lookup])
      (by simp [List.lookup])
      (fun n => by simp [matchesFilter, topPlacesDocOf, List.lookup])
      (fun st n h0 => by
        simp [save_scrape_ops, topPlacesDocOf, List.lookup, applyOps, applyOp])
      st f d h1 h2
  · intro st f d h1 h2
    simp only [historical_eq_simple] at h1 ⊢
    exact simpleScrape_roundtrip _ _ _ _ _ _ _
      (fun d h => by cases Except.ok.inj h; simp [List.lookup])
      (by simp [List.lookup])
      (fun n => by simp [matchesFilter, historicalDocOf, List.lookup])
      (fun st n h0 => by
        simp [save_scrape_ops, historicalDocOf, List.lookup, applyOps, applyOp])
      st f d h1 h2
  · intro st f d h1 h2
    simp only [top_beaches_eq_simple] at h1 ⊢
    exact simpleScrape_roundtrip _ _ _ _ _ _ _
      (fun d h => by cases Except.ok.inj h; simp [List.lookup])
      (by simp [List.lookup])
      (fun n => by simp [matchesFilter, topBeachesDocOf, List.lookup])
      (fun st n h0 => by
        simp [save_scrape_ops, topBeachesDocOf, List.lookup, applyOps, applyOp])
      st f d h1 h2
  · intro st f d h1 h2
    simp only [cost_of_living_eq_simple] at h1 ⊢
    exact simpleScrape_roundtrip _ _ _ _ _ _ _
      (fun d h => by cases Except.ok.inj h; simp [List.lookup])
      (by simp [List.lookup])
      (fun n => by simp [matchesFilter, livingCostDocOf, List.lookup])
      (fun st n h0 => by
        unfold findOne at h0
        simp [applyOps, applyOp, h0])
      st f d h1 h2

/-- C4 counterexample: `broadband_data` never reads the cache, so a repeat
call with an unchanged upstream still performs two fetches (never zero) and
still issues store writes. -/
theorem broadband_repeat_call_fetches_again :
    (broadband_data broadbandFetch).fetches = 2 ∧
    (broadband_data broadbandFetch).fetches ≠ 0 ∧
    (broadband_data broadbandFetch).ops ≠ [] := by
  decide

/-- Witness for the amended C4 at concrete inputs: the top-beaches round
trip on the concrete beach page, and broadband performing two fetches. -/
theorem six_scrapers_roundtrip_broadband_refetches_witness :
    ((top_beaches_data (applyOps emptyStore (top_beaches_data emptyStore beachFetch).ops)
        beachFetch).fetches = 0 ∧
     ∃ d2, (top_beaches_data (applyOps emptyStore (top_beaches_data emptyStore beachFetch).ops)
        beachFetch).ret = .ok d2 ∧
       d2.lookup "tags" = (topBeachesDocOf beachDiv).lookup "tags" ∧
       d2.lookup "lists" = (topBeachesDocOf beachDiv).lookup "lists" ∧
       d2.lookup "content" = (topBeachesDocOf beachDiv).lookup "content") ∧
    (broadband_data broadbandFetch true).fetches = 2 :=
  ⟨six_scrapers_roundtrip_broadband_refetches.2.2.2.2.1 emptyStore beachFetch
      (topBeachesDocOf beachDiv) rfl rfl,
   six_scrapers_roundtrip_broadband_refetches.2.2.2.2.2.2 broadbandFetch true⟩

/-! ## C5 -/

theorem save_scrape_ops_of_clean (d : Doc) (hne : d.isEmpty = false)
    (herr : d.lookup "error" = none) : save_scrape_ops d = [.insertOne d] := by
  simp [save_scrape_ops, hne, herr]

theorem broadband_page_ops_insert (f : Fetcher) (force : Bool)
    (url pageKey title selClass : String) :
    ∀ d, WriteOp.insertOne d ∈ (broadbandPage f force url pageKey title selClass).2 →
      d.lookup "page" = some (.str pageKey) := by
  intro d hd
  unfold broadbandPage at hd
  cases hf : f url with
  | none =>
      rw [hf] at hd
      cases force <;> simp at hd
  | some soup =>
      rw [hf] at hd
      simp only [] at hd
      cases hs : findTagClass "div" selClass soup with
      | none =>
          rw [hs] at hd
          cases force <;> simp at hd
      | some sec =>
          rw [hs] at hd
          simp only [] at hd
          rw [save_scrape_ops_of_clean _ (by simp) (by simp [List.lookup])] at hd
          simp only [List.mem_append, List.mem_singleton] at hd
          rcases hd with hd | hd
          · cases force <;> simp at hd
          · injection hd with hd
            subst hd
            simp [List.lookup]

/-- C5 (amended): a fetch failure never causes an insert or replace — for
the six single-page scrapers the store is left exactly unchanged, and
`broadband_data` never inserts a record for a page key whose fetch failed —
but `broadband_data`'s pre-fetch delete means its fetch failures do not
leave the store unchanged. -/
theorem fetch_failure_never_persists :
    (∀ st f, f visaUrl = none → applyOps st (get_visa_data st f).ops = st) ∧
    (∀ st f, f transportUrl = none → applyOps st (transport_data st f).ops = st) ∧
    (∀ st f, f topPlacesUrl = none → applyOps st (top_places_data st f).ops = st) ∧
    (∀ st f, f historicalUrl = none → applyOps st (historical_places_data st f).ops = st) ∧
    (∀ st f, f topBeachesUrl = none → applyOps st (top_beaches_data st f).ops = st) ∧
    (∀ st f force, f livingCostUrl = none →
       applyOps st (cost_of_living st f force).ops = st) ∧
    (∀ f force d, f dialogUrl = none →
       WriteOp.insertOne d ∈ (broadband_data f force).ops →
       d.lookup "page" ≠ some (.str "broadband_dialog")) ∧
    (∀ f force d, f mobitelUrl = none →
       WriteOp.insertOne d ∈ (broadband_data f force).ops →
       d.lookup "page" ≠ some (.str "broadband_mobitel")) := by
  refine ⟨?_, ?_, ?_, ?_, ?_, ?_, ?_, ?_⟩
  · intro st f hf
    rw [visa_eq_simple]
    exact (simpleScrape_fetchfail_leaves_store _ _ _ _ _ _ _ st f hf).2
  · intro st f hf
    rw [transport_eq_simple]
    exact (simpleScrape_fetchfail_leaves_store _ _ _ _ _ _ _ st f hf).2
  · intro st f hf
    rw [top_places_eq_simple]
    exact (simpleScrape_fetchfail_leaves_store _ _ _ _ _ _ _ st f hf).2
  · intro st f hf
    rw [historical_eq_simple]
    exact (simpleScrape_fetchfail_leaves_store _ _ _ _ _ _ _ st f hf).2
  · intro st f hf
    rw [top_beaches_eq_simple]
    exact (simpleScrape_fetchfail_leaves_store _ _ _ _ _ _ _ st f hf).2
  · intro st f force hf
    cases force with
    | false =>
        rw [cost_of_living_eq_simple]
        exact (simpleScrape_fetchfail_leaves_store _ _ _ _ _ _ _ st f hf).2
    | true => simp [cost_of_living, hf, applyOps_nil]
  · intro f force d hf hd he
    simp only [broadband_data, List.mem_append] at hd
    rcases hd with hd | hd
    · unfold broadbandPage at hd
      rw [hf] at hd
      cases force <;> simp at hd
    · have := broadband_page_ops_insert f force mobitelUrl "broadband_mobitel"
        "Mobitel Broadband Plans" mobitelClass d hd
      rw [he] at this
      simp at this
  · intro f force d hf hd he
    simp only [broadband_data, List.mem_append] at hd
    rcases hd with hd | hd
    · have := broadband_page_ops_insert f force dialogUrl "broadband_dialog"
        "Dialog Prepaid Broadband Plans" dialogClass d hd
      rw [he] at this
      simp at this
    · unfold broadbandPage at hd
      rw [hf] at hd
      cases force <;> simp at hd

/-- C5 counterexample: with a stale `broadband_dialog` record cached and a
failing fetcher, the forced broadband run deletes the record and the fetch
failure then inserts nothing, so the record count for that page key drops
from 1 to 0 — the store is not unchanged. -/
theorem broadband_fetchfail_drops_record :
    countFor stDialog [("page", Val.str "broadband_dialog")] = 1 ∧
    countFor (applyOps stDialog (broadband_data fetchNone).ops)
      [("page", Val.str "broadband_dialog")] = 0 := by
  decide

/-- Witness for the amended C5: top-beaches fetch failure leaves the
populated store untouched, and the broadband run whose dialog fetch fails
inserts only the mobitel record. -/
theorem fetch_failure_never_persists_witness :
    applyOps stTopBeaches (top_beaches_data stTopBeaches fetchNone).ops = stTopBeaches ∧
    ¬ mobitelFreshDoc.lookup "page" = some (.str "broadband_dialog") :=
  ⟨fetch_failure_never_persists.2.2.2.2.1 stTopBeaches fetchNone rfl,
   fetch_failure_never_persists.2.2.2.2.2.2.1 mobitelOnlyFetch true mobitelFreshDoc rfl
     (by decide)⟩

/-! ## C9 -/

theorem cost_of_living_ops_cases (st : Store) (f : Fetcher) (force : Bool) :
    (cost_of_living st f force).ops = [] ∨
    ∃ d, (cost_of_living st f force).ops =
        [.replaceOneUpsert [("page", Val.str "livingCost")] d] ∧
      d.lookup "page" = some (.str "livingCost") := by
  unfold cost_of_living
  split
  · exact Or.inl rfl
  · split
    · exact Or.inl rfl
    · split
      · exact Or.inl rfl
      · right
        refine ⟨_, rfl, ?_⟩
        simp [List.lookup]

theorem replaceFirst_filter_length (P : Doc → Bool) (d : Doc) (hd : P d = true) :
    ∀ l : List (Nat × Doc),
      ((replaceFirst P d l).filter (fun nd => P nd.2)).length =
      (l.filter (fun nd => P nd.2)).length := by
  intro l
  induction l with
  | nil => rfl
  | cons nd rest ih =>
      cases hp : P nd.2 with
      | true => simp [replaceFirst, hp, List.filter_cons, hd]
      | false => simp [replaceFirst, hp, List.filter_cons, ih]

theorem find?_none_filter_nil (P : Nat × Doc → Bool) (l : List (Nat × Doc))
    (h : l.find? P = none) : l.filter P = [] := by
  rw [List.filter_eq_nil_iff]
  exact List.find?_eq_none.mp h

theorem find?_some_filter_pos (P : Nat × Doc → Bool) (l : List (Nat × Doc))
    (h : (l.find? P).isSome) : 1 ≤ (l.filter P).length := by
  obtain ⟨x, hx⟩ := Option.isSome_iff_exists.mp h
  exact List.length_pos_of_mem
    (List.mem_filter.mpr ⟨List.mem_of_find?_eq_some hx, List.find?_some hx⟩)

theorem countFor_upsert (st : Store) (flt : DFilter) (d : Doc)
    (hd : matchesFilter flt d = true) :
    1 ≤ countFor (applyOp st (.replaceOneUpsert flt d)) flt ∧
    (countFor st flt ≤ 1 → countFor (applyOp st (.replaceOneUpsert flt d)) flt ≤ 1) := by
  unfold applyOp countFor
  cases hfind : (st.docs.find? (fun nd => matchesFilter flt nd.2)).isSome with
  | true =>
      simp only [hfind, if_true]
      rw [replaceFirst_filter_length _ _ hd]
      exact ⟨find?_some_filter_pos _ _ hfind, fun h => h⟩
  | false =>
      simp only [hfind, Bool.false_eq_true, if_false]
      rw [List.filter_append,
        find?_none_filter_nil _ _ (Option.not_isSome_iff_eq_none.mp (by simp [hfind]))]
      simp [List.filter_cons, hd]

theorem prefix_of_singleton {α : Type} (x : α) (l : List α) (h : l <+: [x]) :
    l = [] ∨ l = [x] := by
  cases l with
  | nil => exact Or.inl rfl
  | cons a t =>
      rcases List.cons_prefix_cons.mp h with ⟨rfl, ht⟩
      rcases List.prefix_nil.mp ht with rfl
      exact Or.inr rfl

/-- C9: the cost-of-living scraper issues at most one store write, always the
`replace_one(upsert=True)` keyed on `page = livingCost` (never a delete), and
along every prefix of its write sequence a present `livingCost` record stays
present and at-most-one such record stays at-most-one. -/
theorem cost_of_living_single_upsert_no_absence :
    (∀ st f force op, op ∈ (cost_of_living st f force).ops →
       ∃ d, op = .replaceOneUpsert [("page", Val.str "livingCost")] d ∧
         d.lookup "page" = some (.str "livingCost")) ∧
    (∀ st f force, (cost_of_living st f force).ops.length ≤ 1) ∧
    (∀ st f force ops2, ops2 <+: (cost_of_living st f force).ops →
       (1 ≤ countFor st [("page", Val.str "livingCost")] →
          1 ≤ countFor (applyOps st ops2) [("page", Val.str "livingCost")]) ∧
       (countFor st [("page", Val.str "livingCost")] ≤ 1 →
          countFor (applyOps st ops2) [("page", Val.str "livingCost")] ≤ 1)) := by
  refine ⟨?_, ?_, ?_⟩
  · intro st f force op hop
    rcases cost_of_living_ops_cases st f force with h | ⟨d, h, hpage⟩
    · rw [h] at hop; simp at hop
    · rw [h] at hop
      rcases List.mem_singleton.mp hop with rfl
      exact ⟨d, rfl, hpage⟩
  · intro st f force
    rcases cost_of_living_ops_cases st f force with h | ⟨d, h, _⟩ <;> simp [h]
  · intro st f force ops2 hpre
    rcases cost_of_living_ops_cases st f force with h | ⟨d, h, hpage⟩
    · rw [h] at hpre
      rcases List.prefix_nil.mp hpre with rfl
      exact ⟨fun h1 => h1, fun h1 => h1⟩
    · rw [h] at hpre
      rcases prefix_of_singleton _ _ hpre with rfl | rfl
      · exact ⟨fun h1 => h1, fun h1 => h1⟩
      · have hmatch : matchesFilter [("page", Val.str "livingCost")] d = true := by
          simp [matchesFilter, hpage]
        have hc := countFor_upsert st [("page", Val.str "livingCost")] d hmatch
        exact ⟨fun _ => hc.1, hc.2⟩

/-- Witness for C9: the concrete forced living-cost refresh on a store
holding one `livingCost` record performs its single upsert with the record
present and unique throughout. -/
theorem cost_of_living_single_upsert_no_absence_witness :
    (cost_of_living stLiving livingCostFetch true).ops.length ≤ 1 ∧
    (1 ≤ countFor (applyOps stLiving (cost_of_living stLiving livingCostFetch true).ops)
        [("page", Val.str "livingCost")] ∧
     countFor (applyOps stLiving (cost_of_living stLiving livingCostFetch true).ops)
        [("page", Val.str "livingCost")] ≤ 1) :=
  ⟨cost_of_living_single_upsert_no_absence.2.1 stLiving livingCostFetch true,
   (cost_of_living_single_upsert_no_absence.2.2 stLiving livingCostFetch true _
      (List.prefix_refl _)).1 (by decide),
   (cost_of_living_single_upsert_no_absence.2.2 stLiving livingCostFetch true _
      (List.prefix_refl _)).2 (by decide)⟩

/-! ## C8: `str.replace` leaves no occurrence of the replaced prefix -/

theorem raux_skip (pat repl : List Char) :
    ∀ l k, raux pat repl l k = replaceAll pat repl (l.drop k) := by
  intro l
  induction l with
  | nil => intro k; cases k <;> rfl
  | cons c rest ih =>
      intro k
      cases k with
      | zero => rfl
      | succ k =>
          show raux pat repl rest k = _
          rw [List.drop_succ_cons]
          exact ih k

theorem replaceAll_cons (pat repl : List Char) (c : Char) (rest : List Char) :
    replaceAll pat repl (c :: rest) =
      if pat ≠ [] ∧ pat.isPrefixOf (c :: rest) then
        repl ++ replaceAll pat repl (rest.drop (pat.length - 1))
      else c :: replaceAll pat repl rest := by
  show (if pat ≠ [] ∧ pat.isPrefixOf (c :: rest) then
          repl ++ raux pat repl rest (pat.length - 1)
        else c :: raux pat repl rest 0) = _
  rw [raux_skip, raux_skip, List.drop_zero]

theorem prefix_append_split {α : Type} {p a b : List α} (h : p <+: a ++ b) :
    p <+: a ∨ ∃ q, p = a ++ q ∧ q <+: b := by
  obtain ⟨t, ht⟩ := h
  rcases List.append_eq_append_iff.mp ht with ⟨w, hw1, _⟩ | ⟨w, hw1, hw2⟩
  · exact Or.inl ⟨w, hw1.symm⟩
  · exact Or.inr ⟨w, hw1, ⟨t, hw2.symm⟩⟩

theorem infix_iff_exists_drop {α : Type} {P l : List α} :
    P <:+: l ↔ ∃ i, P <+: l.drop i := by
  constructor
  · rintro ⟨u, v, rfl⟩
    refine ⟨u.length, ?_⟩
    rw [List.append_assoc, List.drop_left]
    exact ⟨v, rfl⟩
  · rintro ⟨i, t, ht⟩
    exact ⟨l.take i, t, by rw [List.append_assoc, ht, List.take_append_drop]⟩

theorem infix_append_cases {α : Type} {P a b : List α} (h : P <:+: a ++ b) :
    P <:+: a ∨ P <:+: b ∨ ∃ k, k < a.length ∧ (a.drop k) <+: P := by
  rcases infix_iff_exists_drop.mp h with ⟨i, hp⟩
  by_cases hi : i < a.length
  · rw [List.drop_append_eq_append_drop] at hp
    rcases prefix_append_split hp with hpa | ⟨q, hq, _⟩
    · exact Or.inl (infix_iff_exists_drop.mpr ⟨i, hpa⟩)
    · exact Or.inr (Or.inr ⟨i, hi, ⟨q, hq.symm⟩⟩)
  · rw [List.drop_append_eq_append_drop, List.drop_eq_nil_of_le (by omega),
      List.nil_append] at hp
    exact Or.inr (Or.inl (infix_iff_exists_drop.mpr ⟨i - a.length, hp⟩))

/-- A proper suffix of `P` that prefixes the output of `replaceAll pat repl`
already prefixes the input, provided no proper suffix of `P` is comparable
with `repl` in the prefix order. -/
theorem repl_prefix_inv (P pat repl : List Char)
    (hdropP : ∀ j, j < P.length → 0 < j → ¬ ((P.drop j) <+: repl))
    (hreplP : ∀ j, j < P.length → 0 < j → ¬ (repl <+: P.drop j)) :
    ∀ l j, 0 < j → j < P.length →
      (P.drop j) <+: replaceAll pat repl l → (P.drop j) <+: l := by
  intro l
  induction l with
  | nil =>
      intro j hj hjlen hpre
      have heq := List.prefix_nil.mp hpre
      have := congrArg List.length heq
      simp [List.length_drop] at this
      omega
  | cons c rest ih =>
      intro j hj hjlen hpre
      rw [replaceAll_cons] at hpre
      split at hpre
      · rcases prefix_append_split hpre with hca | ⟨q, hq, _⟩
        · exact absurd hca (hdropP j hjlen hj)
        · exact absurd ⟨q, hq.symm⟩ (hreplP j hjlen hj)
      · rw [List.drop_eq_getElem_cons hjlen] at hpre ⊢
        rcases List.cons_prefix_cons.mp hpre with ⟨hc, htail⟩
        by_cases hj1 : j + 1 < P.length
        · exact List.cons_prefix_cons.mpr ⟨hc, ih (j + 1) (by omega) hj1 htail⟩
        · have hnil : P.drop (j + 1) = [] := List.drop_eq_nil_of_le (by omega)
          rw [hnil]
          exact List.cons_prefix_cons.mpr ⟨hc, List.nil_prefix⟩

/-- After `s.replace(pat, repl)`, no occurrence of `pat` remains, provided
`pat` does not occur in `repl` and no overlap between `repl` and `pat` can
recreate one at a junction. -/
theorem replaceAll_no_self (pat repl : List Char) (hlen : 1 < pat.length)
    (hA : ¬ pat <:+: repl)
    (hB : ∀ k, k < repl.length → ¬ ((repl.drop k) <+: pat))
    (hdropP : ∀ j, j < pat.length → 0 < j → ¬ ((pat.drop j) <+: repl))
    (hreplP : ∀ j, j < pat.length → 0 < j → ¬ (repl <+: pat.drop j)) :
    ∀ l, ¬ pat <:+: replaceAll pat repl l := by
  have hnil : ¬ pat <:+: ([] : List Char) := by
    intro h
    have := List.infix_nil.mp h
    rw [this] at hlen
    simp at hlen
  have main : ∀ N l, l.length ≤ N → ¬ pat <:+: replaceAll pat repl l := by
    intro N
    induction N with
    | zero =>
        intro l hl
        rw [List.length_eq_zero.mp (Nat.le_zero.mp hl)]
        exact hnil
    | succ N ihN =>
        intro l hl
        cases l with
        | nil => exact hnil
        | cons c rest =>
            rw [replaceAll_cons]
            split
            · intro hocc
              rcases infix_append_cases hocc with h | h | ⟨k, hk, hkp⟩
              · exact hA h
              · refine ihN _ ?_ h
                have := List.length_drop (pat.length - 1) rest
                simp only [List.length_cons] at hl
                omega
              · exact hB k hk hkp
            · intro hocc
              rcases List.infix_cons_iff.mp hocc with hpre | hocc2
              · have hne : pat ≠ [] := by
                  intro he; rw [he] at hlen; simp at hlen
                have h0 : 0 < pat.length := by omega
                have hpat0 : pat = pat[0] :: pat.drop 1 := by
                  conv_lhs => rw [← List.drop_zero pat]
                  exact List.drop_eq_getElem_cons h0
                nth_rewrite 1 [hpat0] at hpre
                rcases List.cons_prefix_cons.mp hpre with ⟨hc, htail⟩
                have h1 := repl_prefix_inv pat pat repl hdropP hreplP rest 1
                  (by omega) (by omega) htail
                rename_i hm
                exact hm ⟨hne, List.isPrefixOf_iff_prefix.mpr
                  (by rw [hpat0]; exact List.cons_prefix_cons.mpr ⟨hc, h1⟩)⟩
              · refine ihN rest ?_ hocc2
                simp only [List.length_cons] at hl
                omega
  intro l
  exact main l.length l (Nat.le_refl _)

/-- `s.replace(pat, repl)` creates no occurrence of a different pattern `P`
that was absent from `s`, provided `P` does not occur in `repl` and no
junction overlap can create one. -/
theorem replaceAll_preserves_absence (P pat repl : List Char)
    (hlenP : 1 < P.length)
    (hA : ¬ P <:+: repl)
    (hB : ∀ k, k < repl.length → ¬ ((repl.drop k) <+: P))
    (hdropP : ∀ j, j < P.length → 0 < j → ¬ ((P.drop j) <+: repl))
    (hreplP : ∀ j, j < P.length → 0 < j → ¬ (repl <+: P.drop j)) :
    ∀ l, ¬ P <:+: l → ¬ P <:+: replaceAll pat repl l := by
  have hnil : ¬ P <:+: ([] : List Char) := by
    intro h
    have := List.infix_nil.mp h
    rw [this] at hlenP
    simp at hlenP
  have main : ∀ N l, l.length ≤ N → ¬ P <:+: l → ¬ P <:+: replaceAll pat repl l := by
    intro N
    induction N with
    | zero =>
        intro l hl _
        rw [List.length_eq_zero.mp (Nat.le_zero.mp hl)]
        exact hnil
    | succ N ihN =>
        intro l hl hno
        cases l with
        | nil => exact hnil
        | cons c rest =>
            rw [replaceAll_cons]
            split
            · rename_i hm
              obtain ⟨hne, hpref⟩ := hm
              obtain ⟨tail2, htail2⟩ := List.isPrefixOf_iff_prefix.mp hpref
              intro hocc
              rcases infix_append_cases hocc with h | h | ⟨k, hk, hkp⟩
              · exact hA h
              · refine ihN (rest.drop (pat.length - 1)) ?_ ?_ h
                · have := List.length_drop (pat.length - 1) rest
                  simp only [List.length_cons] at hl
                  omega
                · intro habs
                  exact hno (habs.trans (List.drop_suffix (pat.length - 1) rest).isInfix
                    |>.trans (List.suffix_cons c rest).isInfix)
              · exact hB k hk hkp
            · intro hocc
              rcases List.infix_cons_iff.mp hocc with hpre | hocc2
              · have h0 : 0 < P.length := by omega
                have hpat0 : P = P[0] :: P.drop 1 := by
                  conv_lhs => rw [← List.drop_zero P]
                  exact List.drop_eq_getElem_cons h0
                rw [hpat0] at hpre
                rcases List.cons_prefix_cons.mp hpre with ⟨hc, htail⟩
                have h1 := repl_prefix_inv P pat repl hdropP hreplP rest 1
                  (by omega) (by omega) htail
                refine hno ?_
                refine List.IsPrefix.isInfix ?_
                rw [hpat0]
                exact List.cons_prefix_cons.mpr ⟨hc, h1⟩
              · refine ihN rest ?_ ?_ hocc2
                · simp only [List.length_cons] at hl
                  omega
                · intro habs
                  exact hno (habs.trans (List.suffix_cons c rest).isInfix)
  intro l hno
  exact main l.length l (Nat.le_refl _) hno

/-- C8: the transport rewrite replaces every occurrence of the two original
link prefixes (it is Python `str.replace` applied to the serialized markup),
and for any input markup the rewritten string — the `content` the scraper
persists and returns — contains no occurrence of either original prefix. -/
theorem transport_rewrite_no_original_links :
    (∀ s : String,
       ¬ busbookingUrl.data <:+: (transportRewrite s).data ∧
       ¬ sltbExpressUrl.data <:+: (transportRewrite s).data) ∧
    (∀ st f (d : Doc), (transport_data st f).ops = [.insertOne d] →
       ∃ c, d.lookup "content" = some (.str c) ∧ (∃ s0, c = transportRewrite s0) ∧
         ¬ busbookingUrl.data <:+: c.data ∧ ¬ sltbExpressUrl.data <:+: c.data) := by
  have h1 : ∀ s : String,
      ¬ busbookingUrl.data <:+: (transportRewrite s).data ∧
      ¬ sltbExpressUrl.data <:+: (transportRewrite s).data := by
    intro s
    constructor
    · show ¬ busbookingUrl.data <:+: replaceAll sltbExpressUrl.data sltbEseatUrl.data
        (replaceAll busbookingUrl.data busseatUrl.data s.data)
      apply replaceAll_preserves_absence _ _ _ (by decide) (by decide) (by decide)
        (by decide) (by decide)
      exact replaceAll_no_self _ _ (by decide) (by decide) (by decide) (by decide)
        (by decide) s.data
    · show ¬ sltbExpressUrl.data <:+: replaceAll sltbExpressUrl.data sltbEseatUrl.data
        (replaceAll busbookingUrl.data busseatUrl.data s.data)
      exact replaceAll_no_self _ _ (by decide) (by decide) (by decide) (by decide)
        (by decide) _
  refine ⟨h1, ?_⟩
  intro st f d hops
  rw [transport_eq_simple] at hops
  unfold simpleScrape at hops
  cases h0 : findOne st [("page", Val.str "transport")] with
  | some nd =>
      rw [h0] at hops
      obtain ⟨i, dd⟩ := nd
      simp at hops
  | none =>
      rw [h0] at hops
      simp only [] at hops
      cases hf : f transportUrl with
      | none => rw [hf] at hops; simp at hops
      | some soup =>
          rw [hf] at hops
          simp only [] at hops
          cases hs : findTagClass "div" "content-inner" soup with
          | none => rw [hs] at hops; simp at hops
          | some div =>
              rw [hs] at hops
              simp only [] at hops
              rw [save_scrape_ops_of_clean _ (by simp [transportDocOf])
                (by simp [transportDocOf, List.lookup])] at hops
              simp only [List.cons.injEq, and_true, WriteOp.insertOne.injEq] at hops
              subst hops
              refine ⟨transportRewrite (decodeContents div),
                by simp [transportDocOf, List.lookup], ⟨decodeContents div, rfl⟩,
                (h1 (decodeContents div)).1, (h1 (decodeContents div)).2⟩

/-- Witness for C8 at a concrete transport page containing both original
link domains. -/
theorem transport_rewrite_no_original_links_witness :
    (¬ busbookingUrl.data <:+: (transportRewrite "go https://www.busbooking.lk/abc now").data ∧
     ¬ sltbExpressUrl.data <:+:
        (transportRewrite "go https://www.busbooking.lk/abc now").data) ∧
    ∃ c, (transportDocOf transportDiv).lookup "content" = some (.str c) ∧
      (∃ s0, c = transportRewrite s0) ∧
      ¬ busbookingUrl.data <:+: c.data ∧ ¬ sltbExpressUrl.data <:+: c.data :=
  ⟨transport_rewrite_no_original_links.1 "go https://www.busbooking.lk/abc now",
   transport_rewrite_no_original_links.2 emptyStore transportFetch
     (transportDocOf transportDiv) (by decide)⟩
